import Mathlib

/-!
Shallow embedding of `src/lib/scraper/scraper.py` (Atom-boilua).

The script scrapes generated HTML documentation of the Afterbirth+ Lua API
and assembles an in-memory model: classes (with methods, attributes and a
constructor), namespaces (with free functions), and enumerators (with
members), plus the file categorizer and the top-level assembler.

The regular-expression module `scraper_regexs` that `scraper.py` imports is
not part of the source tree, so the pattern library is modelled from the
spec as an abstract record of matcher functions (`Patterns`), one field per
pattern, each returning the named capture groups of a successful search.
All builders and the assembler are translated from `scraper.py` itself and
are parameterised by such a pattern record.

Python exceptions are modelled with `Except ScraperError`; CPython list and
string semantics that the script relies on (negative indexing, truthiness
of strings, `os.path.basename`, `str.strip`) are modelled by small explicit
helper functions.
-/

/-- Characters of a string, used by the character-level models of the
Python string helpers. -/
def strChars (s : String) : List Char := s.data

/-- If `p` is a prefix of `s`, the remainder of `s` after `p`. -/
def charPrefixRest : List Char → List Char → Option (List Char)
  | [], s => some s
  | _ :: _, [] => none
  | c :: p, d :: s => if c = d then charPrefixRest p s else none

/-- If `suf` is a suffix of `s`, the part of `s` before `suf`. -/
def charSuffixRest (suf s : List Char) : Option (List Char) :=
  (charPrefixRest suf.reverse s.reverse).map List.reverse

/-- Boolean prefix test on strings (model of Python `str.startswith`). -/
def pyStartsWith (p s : String) : Bool := (charPrefixRest p.data s.data).isSome

/-- Python whitespace characters stripped by `str.strip()`. -/
def isSpaceChar (c : Char) : Bool :=
  c = ' ' || c = '\t' || c = '\n' || c = '\r' || c = '\x0b' || c = '\x0c'

/-- Model of Python `str.strip()`: drop leading and trailing whitespace. -/
def pyStrip (s : String) : String :=
  ⟨((s.data.dropWhile isSpaceChar).reverse.dropWhile isSpaceChar).reverse⟩

/-- Model of `os.path.basename` for POSIX paths: the part of the path after
the last slash. -/
def basename (p : String) : String :=
  ⟨(p.data.reverse.takeWhile (fun c => c ≠ '/')).reverse⟩

/-- Model of `os.path.join` for the shapes used by the script: a (possibly
empty) directory joined with a relative component. -/
def pjoin (a b : String) : String :=
  if a.data = [] then b
  else if a.data.getLast? = some '/' then a ++ b
  else a ++ "/" ++ b

/-- Model of Python `', '.join`-style content reconstruction: the whole
content of a file is the concatenation of its lines (each line keeps its
terminating newline, as produced by iterating a Python file object). -/
def fileContent (ls : List String) : String := String.join ls

/-- The exceptions that `scraper.py` can raise, including the two Python
built-in exceptions that escape from it (`AttributeError` from calling
`.group` on a failed `search`, `IndexError` from `list[-1]` on an empty
list). -/
inductive ScraperError where
  | invalidFunction
  | invalidAttribute
  | updatedDoc
  | attributeError
  | indexError
deriving DecidableEq, Repr

/-- Decidable equality of `Except` results, used to evaluate the builders
on concrete inputs. -/
instance {ε α : Type} [DecidableEq ε] [DecidableEq α] :
    DecidableEq (Except ε α) := fun a b =>
  match a, b with
  | .error e, .error e' =>
    if h : e = e' then .isTrue (by rw [h])
    else .isFalse (by simp [h])
  | .ok v, .ok v' =>
    if h : v = v' then .isTrue (by rw [h])
    else .isFalse (by simp [h])
  | .error _, .ok _ => .isFalse (by simp)
  | .ok _, .error _ => .isFalse (by simp)

/-- Field-level mismatch errors in the sense of spec §7: the per-line
dispatch signals `InvalidFunctionRematcher` and `InvalidAttributeRematcher`. -/
def ScraperError.isFieldLevel : ScraperError → Bool
  | .invalidFunction => true
  | .invalidAttribute => true
  | _ => false

/-- Structural/document-format errors in the sense of spec §7: the
`UpdatedDocError` kind, which per the spec also covers the fatal
`AttributeError` raised when a whole-file name pattern (class name,
namespace name) fails to match. -/
def ScraperError.isStructural : ScraperError → Bool
  | .updatedDoc => true
  | .attributeError => true
  | _ => false

/-- Modelled from the spec: capture groups of a successful search by a
type-bearing pattern of the missing `scraper_regexs` module (the `type`
group text plus the `tryMatch` presence flags of the `const` and `static`
groups, spec §4.1). -/
structure TypeMatch where
  type : String
  const : Bool
  static : Bool
deriving DecidableEq, Repr

/-- Modelled from the spec: capture groups of `RE_FUNCTION_PARAMETER`
(`name` may be absent; the doc format sometimes omits parameter names). -/
structure ParamMatch where
  name : Option String
  type : String
  const : Bool
  static : Bool
deriving DecidableEq, Repr

/-- Modelled from the spec: capture groups of `RE_FUNCTION_SIGNATURE`
(`name`, and the optional `parameters` and `returns` group texts). -/
structure FuncSigMatch where
  name : String
  parameters : Option String
  returns : Option String
deriving DecidableEq, Repr

/-- Modelled from the spec: capture groups of `RE_ATTRIBUTE` (`name` may be
absent, `type` is the raw captured type text). -/
structure AttribMatch where
  name : Option String
  type : String
deriving DecidableEq, Repr

/-- Modelled from the spec: capture groups of `RE_ENUM_NAME`
(`name` and `link`). -/
structure EnumNameMatch where
  name : String
  link : String
deriving DecidableEq, Repr

/-- Modelled from the spec: capture groups of `RE_ENUM_MEMBER` (`name`, and
the optional `desc` group). -/
structure EnumMemberMatch where
  name : String
  desc : Option String
deriving DecidableEq, Repr

/-- Modelled from the spec: the pattern library of the missing
`scraper_regexs` module (spec §4.1).  Each field abstracts one pattern's
`search` (returning its named capture groups on success) or substitution;
`reHtmlReplacer` is `RE_HTML_REPLACER.sub('', ·)` and `subHtmlFlags` the
HTML-entity cleanup function. -/
structure Patterns where
  reFunctionSignature : String → Option FuncSigMatch
  reFunctionParameter : String → Option ParamMatch
  reFunctionReturns : String → Option TypeMatch
  reAttribute : String → Option AttribMatch
  reAttributeType : String → Option TypeMatch
  reClassName : String → Option String
  reInheritsFrom : String → Option String
  reNamespaceName : String → Option String
  reEnumName : String → Option EnumNameMatch
  reEnumMember : String → Option EnumMemberMatch
  reDescription : String → Option String
  reHtmlReplacer : String → String
  subHtmlFlags : String → String

/-- Model of `tryMatchString`: the captured group text, or `''` when the
matcher or the group is absent. -/
def tryMatchString (x : Option String) : String := x.getD ""

/-- `DocDescription`: description text plus the documentation link. -/
structure DocDescription where
  description : String
  link : Option String
deriving DecidableEq, Repr

/-- `DocDescription.__init__`: the link joins the fixed base URL with the
basename of the source file, or is `None` when `docLink` is falsy
(Python `None` or the empty string). -/
def DocDescription.make (description : String) (docLink : Option String) :
    DocDescription :=
  { description := description
    link :=
      match docLink with
      | none => none
      | some p =>
        if p = "" then none
        else some ("https://moddingofisaac.com/docs/" ++ basename p) }

/-- `LuaType`: a simple lua type description. -/
structure LuaType where
  name : String
  isConst : Bool
  isStatic : Bool
deriving DecidableEq, Repr

/-- The `typeHint` argument of `LuaType.__init__`: Python
`Union[Match, str] = None`. -/
inductive TypeHint where
  | noHint
  | ofMatch (m : TypeMatch)
  | ofStr (s : String)
deriving DecidableEq, Repr

/-- `LuaType.__initFlat`: an empty name normalizes to `"nil"`. -/
def LuaType.initFlat (name : String) (isConst isStatic : Bool) : LuaType :=
  { name := if name = "" then "nil" else name
    isConst := isConst
    isStatic := isStatic }

/-- `LuaType.__init__`. -/
def LuaType.make (typeHint : TypeHint) (isConst isStatic : Bool) : LuaType :=
  match typeHint with
  | .noHint => LuaType.initFlat "nil" false false
  | .ofMatch m => LuaType.initFlat m.type m.const m.static
  | .ofStr s => LuaType.initFlat s isConst isStatic

/-- `LuaType` built from an `Optional[Match]` argument (Python `None`
selects the `typeHint is None` branch). -/
def LuaType.ofSearch (m : Option TypeMatch) : LuaType :=
  match m with
  | none => LuaType.make .noHint false false
  | some tm => LuaType.make (.ofMatch tm) false false

/-- `LuaVariable`: a named value; an empty name falls back to the type
name. -/
structure LuaVariable where
  name : String
  luaType : LuaType
deriving DecidableEq, Repr

/-- `LuaVariable.__init__`. -/
def LuaVariable.make (name : String) (luaType : LuaType) : LuaVariable :=
  { name := if name = "" then luaType.name else name, luaType := luaType }

/-- `ParamMatch` viewed as the type-bearing part of the same match. -/
def ParamMatch.toTypeMatch (m : ParamMatch) : TypeMatch :=
  ⟨m.type, m.const, m.static⟩

/-- `LuaParam.__init__`: interpolates one parameter from one piece of the
parameter list text. -/
def LuaParam.make (P : Patterns) (line : String) : LuaVariable :=
  let m := P.reFunctionParameter line
  LuaVariable.make (tryMatchString (m.bind (·.name)))
    (LuaType.ofSearch (m.map ParamMatch.toTypeMatch))

/-- `LuaFunction`: name, parameters, return type and optional attached
description. -/
structure LuaFunction where
  name : String
  parameters : List LuaVariable
  returnType : LuaType
  description : Option DocDescription
deriving DecidableEq, Repr

/-- `LuaFunction._findParameters`: nothing on a falsy group text, otherwise
HTML-clean, split on `', '` and keep the non-empty pieces. -/
def findParameters (P : Patterns) (paramMatchedVals : Option String) :
    List LuaVariable :=
  match paramMatchedVals with
  | none => []
  | some s =>
    if s = "" then []
    else (((P.reHtmlReplacer s).splitOn ", ").filter (fun p => p ≠ "")).map
      (LuaParam.make P)

/-- `LuaFunction._findReturnval`: default `nil` type on a falsy group text,
otherwise search the cleaned text for the return type. -/
def findReturnval (P : Patterns) (retMatchval : Option String) : LuaType :=
  match retMatchval with
  | none => LuaType.make .noHint false false
  | some s =>
    if s = "" then LuaType.make .noHint false false
    else LuaType.ofSearch (P.reFunctionReturns (P.reHtmlReplacer s))

/-- `LuaFunction.__initMatch` on a successful signature match. -/
def LuaFunction.ofMatch (P : Patterns) (m : FuncSigMatch) : LuaFunction :=
  { name := m.name
    parameters := findParameters P m.parameters
    returnType := findReturnval P m.returns
    description := none }

/-- `LuaFunction.__initLine`: raises `InvalidFunctionRematcher` when the
signature pattern does not match the line. -/
def LuaFunction.ofLine (P : Patterns) (line : String) :
    Except ScraperError LuaFunction :=
  match P.reFunctionSignature line with
  | none => .error .invalidFunction
  | some m => .ok (LuaFunction.ofMatch P m)

/-- `LuaAttribute`: a class attribute with its type and optional attached
description. -/
structure LuaAttribute where
  name : String
  luaType : LuaType
  description : Option DocDescription
deriving DecidableEq, Repr

/-- `LuaAttribute.__init__`: raises `InvalidAttributeRematcher` when the
attribute pattern does not match or captures no name; the type is searched
in the HTML-cleaned `type` group text. -/
def LuaAttribute.ofLine (P : Patterns) (line : String) :
    Except ScraperError LuaAttribute :=
  match P.reAttribute line with
  | none => .error .invalidAttribute
  | some m =>
    match m.name with
    | none => .error .invalidAttribute
    | some nm =>
      .ok { name := nm
            luaType := LuaType.ofSearch
              (P.reAttributeType (P.reHtmlReplacer m.type))
            description := none }

/-- `_parseDescription`: the stripped, HTML-flag-substituted group 1 of the
description pattern, or `None` when it does not apply (the `AttributeError`
branch of the source returns `None` both when the search fails and when the
group is absent). -/
def parseDescription (P : Patterns) (line : String) : Option String :=
  (P.reDescription line).map (fun s => P.subHtmlFlags (pyStrip s))

/-- `LuaMethod.__init__`: a function bound to a class; when its name equals
the class name, its return type becomes the class type marked static and it
is recorded as the constructor (the returned flag). -/
def LuaMethod.ofLine (P : Patterns) (line className : String) :
    Except ScraperError (LuaFunction × Bool) :=
  match LuaFunction.ofLine P line with
  | .error e => .error e
  | .ok f =>
    if f.name = className then
      .ok ({ f with returnType := LuaType.make (.ofStr className) false true },
        true)
    else
      .ok (f, false)

/-- The mutable state of the `LuaClass.__init__` line loop: the accumulated
lists, the index of the method recorded as constructor (Python keeps a
reference; the reference always aims at a position of `methods`), and the
`lastSet` flag (0 none, 1 `METHOD_SET`, 2 `ATTRIB_SET`). -/
structure ClassState where
  methods : List LuaFunction
  attributes : List LuaAttribute
  constructorIdx : Option Nat
  lastSet : Nat
deriving DecidableEq, Repr

/-- Initial state of the `LuaClass.__init__` line loop. -/
def luaClassInitState : ClassState := ⟨[], [], none, 0⟩

/-- One iteration of the `LuaClass.__init__` line loop: try the line as a
method, then as an attribute, then attach a parsed description to the last
element of the most recently extended list (`list[-1]` on an empty list is
an `IndexError`). -/
def classStep (P : Patterns) (className classPath : String)
    (st : ClassState) (curLine : String) : Except ScraperError ClassState :=
  let st1 :=
    match LuaMethod.ofLine P curLine className with
    | .error _ => st
    | .ok (f, isCtor) =>
      { st with
        methods := st.methods ++ [f]
        constructorIdx :=
          if isCtor then some st.methods.length else st.constructorIdx
        lastSet := 1 }
  let st2 :=
    match LuaAttribute.ofLine P curLine with
    | .error _ => st1
    | .ok a => { st1 with attributes := st1.attributes ++ [a], lastSet := 2 }
  match parseDescription P curLine with
  | none => .ok st2
  | some d =>
    if st2.lastSet = 1 then
      match st2.methods.getLast? with
      | none => .error .indexError
      | some m =>
        .ok { st2 with
          methods := st2.methods.dropLast ++
            [{ m with description := some (DocDescription.make d (some classPath)) }] }
    else if st2.lastSet = 2 then
      match st2.attributes.getLast? with
      | none => .error .indexError
      | some a =>
        .ok { st2 with
          attributes := st2.attributes.dropLast ++
            [{ a with description := some (DocDescription.make d (some classPath)) }] }
    else
      .ok st2

/-- `LuaClass`: name, class description, parent names, methods, attributes
and the recorded constructor (as a position of `methods`). -/
structure LuaClass where
  name : String
  description : DocDescription
  parentNames : List String
  methods : List LuaFunction
  attributes : List LuaAttribute
  constructorIdx : Option Nat
deriving DecidableEq, Repr

/-- The method the class records as its constructor. -/
def LuaClass.constructorMethod (c : LuaClass) : Option LuaFunction :=
  c.constructorIdx.bind (fun i => c.methods[i]?)

/-- `LuaClass.__init__`: extract the class name from the whole content
(calling `.group` on a failed search raises `AttributeError`), record the
optional parent, then run the line loop. -/
def LuaClass.build (P : Patterns) (classPath : String)
    (classLines : List String) : Except ScraperError LuaClass :=
  let content := fileContent classLines
  match P.reClassName content with
  | none => .error .attributeError
  | some nm =>
    match classLines.foldlM (classStep P nm classPath) luaClassInitState with
    | .error e => .error e
    | .ok st =>
      .ok { name := nm
            description := DocDescription.make (nm ++ " instance") (some classPath)
            parentNames :=
              match P.reInheritsFrom content with
              | none => []
              | some p => [p]
            methods := st.methods
            attributes := st.attributes
            constructorIdx := st.constructorIdx }

/-- `LuaNamespace`: name and free functions. -/
structure LuaNamespace where
  name : String
  functions : List LuaFunction
deriving DecidableEq, Repr

/-- One iteration of the `LuaNamespace.__init__` line loop: try the line as
a function, then attach a parsed description to `functions[-1]`
(`IndexError` when the list is still empty). -/
def nsStep (P : Patterns) (fs : List LuaFunction) (curLine : String) :
    Except ScraperError (List LuaFunction) :=
  let fs1 :=
    match LuaFunction.ofLine P curLine with
    | .error _ => fs
    | .ok f => fs ++ [f]
  match parseDescription P curLine with
  | none => .ok fs1
  | some d =>
    match fs1.getLast? with
    | none => .error .indexError
    | some f =>
      .ok (fs1.dropLast ++
        [{ f with description := some (DocDescription.make d none) }])

/-- `LuaNamespace.__init__`: extract the namespace name from the whole
content; on failure the designated global-functions file gets the name
`'_G'` and any other file re-raises the `AttributeError`; then run the
line loop. -/
def LuaNamespace.build (P : Patterns) (namespacePath : String)
    (nsLines : List String) : Except ScraperError LuaNamespace :=
  let content := fileContent nsLines
  let nameRes : Except ScraperError String :=
    match P.reNamespaceName content with
    | some nm => .ok nm
    | none =>
      if basename namespacePath = "group__funcs.html" then .ok "_G"
      else .error .attributeError
  match nameRes with
  | .error e => .error e
  | .ok nm =>
    match nsLines.foldlM (nsStep P) [] with
    | .error e => .error e
    | .ok fs => .ok { name := nm, functions := fs }

/-- `EnumTag`: one enumerator member. -/
structure EnumTag where
  name : String
  value : Int
  description : String
deriving DecidableEq, Repr

/-- `LuaEnumerator`: an enumerator with its members and description. -/
structure LuaEnumerator where
  name : String
  members : List EnumTag
  description : DocDescription
deriving DecidableEq, Repr

/-- `LuaEnumerator.__init__`. -/
def LuaEnumerator.make (name link : String) (members : List EnumTag) :
    LuaEnumerator :=
  { name := name
    members := members
    description := DocDescription.make ("Enum " ++ name) (some link) }

/-- `__streamInit`: read the stream until one `LuaEnumerator` is complete.
The stream cursor is modelled as the remaining list of lines; the pair
returned is the result of the call and the cursor after it (the rewind via
`seek(oldPointerPosition)` leaves the boundary line unconsumed).  Note the
source prefixes `fileName + '#'` on the link only on the rewind path, not
on the end-of-file path. -/
def streamInit (P : Patterns) (fileName : String) :
    List String → Option (String × String) → List EnumTag →
    Option LuaEnumerator × List String
  | [], cur, ms =>
    match cur with
    | some (nm, lk) => (some (LuaEnumerator.make nm lk ms), [])
    | none => (none, [])
  | curLine :: rest, cur, ms =>
    match P.reEnumName curLine with
    | some em =>
      match cur with
      | none => streamInit P fileName rest (some (em.name, em.link)) ms
      | some (nm, lk) =>
        (some (LuaEnumerator.make nm (fileName ++ "#" ++ lk) ms),
          curLine :: rest)
    | none =>
      match P.reEnumMember curLine with
      | some mm =>
        streamInit P fileName rest cur
          (ms ++ [{ name := mm.name
                    value := 0
                    description := P.reHtmlReplacer (tryMatchString mm.desc) }])
      | none => streamInit P fileName rest cur ms

/-- The `while True` drain loop of `AfterbirthApi.__init__` over one enum
stream, with an explicit fuel bound on the number of reader calls. -/
def drainFuel (P : Patterns) (fileName : String) :
    Nat → List String → List LuaEnumerator
  | 0, _ => []
  | fuel + 1, ls =>
    match streamInit P fileName ls none [] with
    | (none, _) => []
    | (some e, rest) => e :: drainFuel P fileName fuel rest

/-- The full drain of one enum stream.  `ls.length + 1` reader calls always
reach the `None` sentinel (each call that returns an enumerator leaves a
strictly shorter remaining stream, see `drainFuel_fuel_irrelevant`), so
this equals the unbounded `while True` loop of the source. -/
def drainEnums (P : Patterns) (fileName : String) (ls : List String) :
    List LuaEnumerator :=
  drainFuel P fileName (ls.length + 1) ls

/-- One entry of `os.scandir` on the doc root: its name, whether it is a
directory, and (for directories) the names of the files inside it. -/
structure DirEntry where
  name : String
  isDir : Bool
  subFiles : List String
deriving DecidableEq, Repr

/-- `allDocFiles`: yield `(file name, directory path)` for every file of
the doc root; a subdirectory not named `search` raises `UpdatedDocError`. -/
def allDocFiles (docPath : String) :
    List DirEntry → Except ScraperError (List (String × String))
  | [] => .ok []
  | e :: rest =>
    if e.isDir then
      if e.name = "search" then
        match allDocFiles docPath rest with
        | .error er => .error er
        | .ok ys => .ok ((e.subFiles.map (fun f => (f, pjoin docPath e.name))) ++ ys)
      else .error .updatedDoc
    else
      match allDocFiles docPath rest with
      | .error er => .error er
      | .ok ys => .ok ((e.name, docPath) :: ys)

/-- A character of the class `[0-9A-Za-z_]` (also the ASCII reading of
`\w` used by the namespace-file pattern). -/
def isWordChar (c : Char) : Bool := c.isAlphanum || c = '_'

/-- `isClassFile`: full match of `class_[0-9A-Za-z_]*(?!-members.html)\.html`.
The negative lookahead can never reject a full match: after the character
class the rest of the name must be `.html`, which never starts with `-`,
so the pattern is prefix `class_`, word characters, suffix `.html`. -/
def isClassFile (name : String) : Bool :=
  match charPrefixRest "class_".data name.data with
  | none => false
  | some rest =>
    match charSuffixRest ".html".data rest with
    | none => false
    | some mid => mid.all isWordChar

/-- `isNamespaceFile`: full match of `namespace_[\w]+\.html`, with `\w`
read as ASCII word characters. -/
def isNamespaceFile (name : String) : Bool :=
  match charPrefixRest "namespace_".data name.data with
  | none => false
  | some rest =>
    match charSuffixRest ".html".data rest with
    | none => false
    | some mid => !mid.isEmpty && mid.all isWordChar

/-- `categorizeFiles`: enumerate the doc root twice (one generator run per
list comprehension), classify by filename, and add the two fixed aggregate
paths. -/
def categorizeFiles (docPath : String) (entries : List DirEntry) :
    Except ScraperError (List String × List String × List String × List String) :=
  match allDocFiles docPath entries with
  | .error e => .error e
  | .ok files1 =>
    match allDocFiles docPath entries with
    | .error e => .error e
    | .ok files2 =>
      .ok ((files1.filter (fun fd => isClassFile fd.1)).map
              (fun fd => pjoin fd.2 fd.1),
           (files2.filter (fun fd => isNamespaceFile fd.1)).map
              (fun fd => pjoin fd.2 fd.1),
           [pjoin docPath "group__enums.html"],
           [pjoin docPath "group__funcs.html"])

/-- The documentation tree an `AfterbirthApi` run reads: the `os.scandir`
entries of the root and the lines of the file at each path. -/
structure DocTree where
  entries : List DirEntry
  readFile : String → List String

/-- The API snapshot assembled by `AfterbirthApi.__init__`. -/
structure AfterbirthApi where
  classes : List LuaClass
  namespaces : List LuaNamespace
  enumerators : List LuaEnumerator
deriving DecidableEq, Repr

/-- `AfterbirthApi.__init__`, with the class-level `enumerators` attribute
made explicit.  `self.enumerators += [curEnum]` extends the list bound at
class-definition scope in place (the instance attribute becomes that same
list), so a construction starts from whatever that list holds and the pair
returned is the snapshot together with the class-level list after the
run.  A first-ever construction passes `[]`. -/
def AfterbirthApi.buildSt (P : Patterns) (docPath : String) (tree : DocTree)
    (classEnums : List LuaEnumerator) :
    Except ScraperError (AfterbirthApi × List LuaEnumerator) :=
  match categorizeFiles docPath tree.entries with
  | .error e => .error e
  | .ok (classFiles, nsFiles, enumFiles, funFiles) =>
    match classFiles.mapM (fun f => LuaClass.build P f (tree.readFile f)) with
    | .error e => .error e
    | .ok classes =>
      match (nsFiles ++ funFiles).mapM
          (fun f => LuaNamespace.build P f (tree.readFile f)) with
      | .error e => .error e
      | .ok nss =>
        let enums := classEnums ++
          (enumFiles.map (fun f => drainEnums P f (tree.readFile f))).flatten
        .ok ({ classes := classes, namespaces := nss, enumerators := enums },
          enums)

/-- `AfterbirthApi.__init__` run on a fresh interpreter (class-level
`enumerators` still empty). -/
def AfterbirthApi.build (P : Patterns) (docPath : String) (tree : DocTree) :
    Except ScraperError AfterbirthApi :=
  (AfterbirthApi.buildSt P docPath tree []).map (·.1)

/-- The argument text of a marker line of the demonstration pattern set:
everything after the four-character marker, up to the end of the line. -/
def lineArg (s : String) : String :=
  ⟨((s.data.drop 4).takeWhile (fun c => c ≠ '\n'))⟩

/-- A small concrete pattern library used to run the theorems of this file
on explicit inputs: each pattern keys on a four-character marker at the
start of the line (or of the content, for the whole-file patterns). -/
def demoPatterns : Patterns where
  reFunctionSignature l :=
    if pyStartsWith "FUN " l then some ⟨lineArg l, none, none⟩ else none
  reFunctionParameter _ := none
  reFunctionReturns _ := none
  reAttribute l :=
    if pyStartsWith "ATT " l then some ⟨some (lineArg l), ""⟩ else none
  reAttributeType _ := none
  reClassName c :=
    if pyStartsWith "CLS " c then some (lineArg c) else none
  reInheritsFrom _ := none
  reNamespaceName c :=
    if pyStartsWith "NSP " c then some (lineArg c) else none
  reEnumName l :=
    if pyStartsWith "ENU " l then some ⟨lineArg l, "lk"⟩ else none
  reEnumMember l :=
    if pyStartsWith "MEM " l then some ⟨lineArg l, none⟩ else none
  reDescription l :=
    if pyStartsWith "DES " l then some (lineArg l) else none
  reHtmlReplacer s := s
  subHtmlFlags s := s

/-- A body is description-safe when no line matching the description
pattern occurs before the first line matching the function-signature
pattern (a description on the same line as the first signature is safe:
the function is appended before the description is attached). -/
def descSafe (P : Patterns) : List String → Bool
  | [] => true
  | l :: rest =>
    (P.reFunctionSignature l).isSome ||
      ((P.reDescription l).isNone && descSafe P rest)

/-- The invariant of the `LuaClass.__init__` line loop: the `lastSet` flag
only designates a non-empty list. -/
def classInv (st : ClassState) : Prop :=
  (st.lastSet = 1 → st.methods ≠ []) ∧ (st.lastSet = 2 → st.attributes ≠ [])

/-- The demonstration pattern set with the class-name pattern replaced by
one that always finds the class name `"foo"` somewhere in the content. -/
def demoPatternsFoo : Patterns :=
  { demoPatterns with reClassName := fun _ => some "foo" }

/-- The demonstration pattern set with the namespace-name pattern replaced
by one that always finds the namespace name `"ns"` in the content. -/
def demoPatternsNs : Patterns :=
  { demoPatterns with reNamespaceName := fun _ => some "ns" }

/-- A concrete documentation tree whose enum aggregate file holds one
enumerator with one member; every other file is empty. -/
def oneEnumTree : DocTree where
  entries := []
  readFile p := if p = "d/group__enums.html" then ["ENU A\n", "MEM x\n"] else []

/-- The single enumerator of `oneEnumTree` as the assembler builds it. -/
def oneEnumA : LuaEnumerator := LuaEnumerator.make "A" "lk" [⟨"x", 0, ""⟩]

/-- The global-functions namespace the assembler builds for `oneEnumTree`. -/
def oneEnumNsG : LuaNamespace := ⟨"_G", []⟩

/-! Helper lemmas. -/

theorem getLast?_mem_of_eq_some {α : Type} {l : List α} {a : α}
    (h : l.getLast? = some a) : a ∈ l := by
  induction l with
  | nil => simp at h
  | cons x xs ih =>
    cases xs with
    | nil => simp_all
    | cons y ys =>
      rw [List.getLast?_cons_cons] at h
      exact List.mem_cons_of_mem x (ih h)

theorem exists_getLast?_eq_some {α : Type} {l : List α} (h : l ≠ []) :
    ∃ a, l.getLast? = some a :=
  Option.isSome_iff_exists.mp (List.getLast?_isSome.mpr h)

theorem except_bind_ok {ε α β : Type} {x : Except ε α} {g : α → Except ε β}
    {v : α} (h : x = .ok v) : (x >>= g) = g v := by rw [h]; rfl

theorem except_bind_error {ε α β : Type} {x : Except ε α} {g : α → Except ε β}
    {e : ε} (h : x = .error e) : (x >>= g) = .error e := by rw [h]; rfl

theorem classStep_ok (P : Patterns) (cn cp : String) (st : ClassState)
    (l : String) (h : classInv st) :
    ∃ st', classStep P cn cp st l = .ok st' ∧ classInv st' := by
  obtain ⟨h1, h2⟩ := h
  unfold classStep
  rcases hM : LuaMethod.ofLine P l cn with e | ⟨fc, bc⟩ <;>
  rcases hA : LuaAttribute.ofLine P l with e' | a <;>
  rcases hD : parseDescription P l with _ | d <;>
  simp only [hM, hA, hD]
  · exact ⟨st, rfl, h1, h2⟩
  · by_cases hL1 : st.lastSet = 1
    · obtain ⟨m, hm⟩ := exists_getLast?_eq_some (h1 hL1)
      simp only [hL1, if_pos rfl, hm]
      refine ⟨_, rfl, ?_, ?_⟩ <;> intro hx <;> simp_all
    · by_cases hL2 : st.lastSet = 2
      · obtain ⟨a', ha⟩ := exists_getLast?_eq_some (h2 hL2)
        simp only [hL1, hL2, if_pos rfl, ha, ite_false, ite_true]
        refine ⟨_, rfl, ?_, ?_⟩ <;> intro hx <;> simp_all
      · simp only [hL1, hL2, ite_false]
        exact ⟨st, rfl, h1, h2⟩
  · refine ⟨_, rfl, ?_, ?_⟩ <;> intro hx <;> simp_all
  · obtain ⟨a', ha⟩ := exists_getLast?_eq_some
      (show st.attributes ++ [a] ≠ [] by simp)
    simp only [ha, ite_true, ite_false]
    refine ⟨_, rfl, ?_, ?_⟩ <;> intro hx <;> simp_all
  · refine ⟨_, rfl, ?_, ?_⟩ <;> intro hx <;> simp_all
  · obtain ⟨m, hm⟩ := exists_getLast?_eq_some
      (show st.methods ++ [fc] ≠ [] by simp)
    simp only [hm, ite_true, ite_false]
    refine ⟨_, rfl, ?_, ?_⟩ <;> intro hx <;> simp_all
  · refine ⟨_, rfl, ?_, ?_⟩ <;> intro hx <;> simp_all
  · obtain ⟨a', ha⟩ := exists_getLast?_eq_some
      (show st.attributes ++ [a] ≠ [] by simp)
    simp only [ha, ite_true, ite_false]
    refine ⟨_, rfl, ?_, ?_⟩ <;> intro hx <;> simp_all

theorem classFold_ok (P : Patterns) (cn cp : String) :
    ∀ (ls : List String) (st : ClassState), classInv st →
      ∃ st', List.foldlM (classStep P cn cp) st ls = .ok st' ∧ classInv st' := by
  intro ls
  induction ls with
  | nil => exact fun st h => ⟨st, rfl, h⟩
  | cons l ls ih =>
    intro st h
    obtain ⟨st1, hstep, hinv1⟩ := classStep_ok P cn cp st l h
    obtain ⟨st2, hfold, hinv2⟩ := ih st1 hinv1
    refine ⟨st2, ?_, hinv2⟩
    rw [List.foldlM_cons, except_bind_ok hstep, hfold]

theorem nsStep_ok_of_ne_nil (P : Patterns) (fs : List LuaFunction)
    (l : String) (h : fs ≠ []) :
    ∃ fs', nsStep P fs l = .ok fs' ∧ fs' ≠ [] := by
  unfold nsStep
  rcases hF : LuaFunction.ofLine P l with e | f <;>
  rcases hD : parseDescription P l with _ | d <;>
  simp only [hF, hD]
  · exact ⟨fs, rfl, h⟩
  · obtain ⟨g, hg⟩ := exists_getLast?_eq_some h
    simp only [hg]
    exact ⟨_, rfl, by simp⟩
  · exact ⟨_, rfl, by simp⟩
  · obtain ⟨g, hg⟩ := exists_getLast?_eq_some (show fs ++ [f] ≠ [] by simp)
    simp only [hg]
    exact ⟨_, rfl, by simp⟩

theorem nsFold_ok_of_ne_nil (P : Patterns) :
    ∀ (ls : List String) (fs : List LuaFunction), fs ≠ [] →
      ∃ fs', List.foldlM (nsStep P) fs ls = .ok fs' ∧ fs' ≠ [] := by
  intro ls
  induction ls with
  | nil => exact fun fs h => ⟨fs, rfl, h⟩
  | cons l ls ih =>
    intro fs h
    obtain ⟨fs1, hstep, h1⟩ := nsStep_ok_of_ne_nil P fs l h
    obtain ⟨fs2, hfold, h2⟩ := ih fs1 h1
    exact ⟨fs2, by rw [List.foldlM_cons, except_bind_ok hstep, hfold], h2⟩

theorem nsFold_ok_of_descSafe (P : Patterns) :
    ∀ ls : List String, descSafe P ls = true →
      ∃ fs, List.foldlM (nsStep P) [] ls = .ok fs := by
  intro ls
  induction ls with
  | nil => exact fun _ => ⟨[], rfl⟩
  | cons l ls ih =>
    intro h
    rw [descSafe] at h
    rcases hF : LuaFunction.ofLine P l with e | f
    · have hD : P.reDescription l = none := by
        rcases hsig : P.reFunctionSignature l with _ | m
        · simp [hsig, Bool.or_eq_true, Bool.and_eq_true] at h
          exact Option.not_isSome_iff_eq_none.mp (by simp [h.1])
        · exact absurd hF (by unfold LuaFunction.ofLine; simp [hsig])
      have hstep : nsStep P [] l = .ok [] := by
        unfold nsStep
        simp [hF, parseDescription, hD]
      have hsafe : descSafe P ls = true := by
        rcases hsig : P.reFunctionSignature l with _ | m
        · simp [hsig, Bool.or_eq_true, Bool.and_eq_true] at h
          exact h.2
        · exact absurd hF (by unfold LuaFunction.ofLine; simp [hsig])
      obtain ⟨fs, hfold⟩ := ih hsafe
      exact ⟨fs, by rw [List.foldlM_cons, except_bind_ok hstep, hfold]⟩
    · have hstep : ∃ fs1, nsStep P [] l = .ok fs1 ∧ fs1 ≠ [] := by
        unfold nsStep
        rcases hD : parseDescription P l with _ | d <;> simp only [hF, hD]
        · exact ⟨[f], rfl, by simp⟩
        · simp only [List.nil_append, List.getLast?_singleton]
          exact ⟨_, rfl, by simp⟩
      obtain ⟨fs1, hstep, h1⟩ := hstep
      obtain ⟨fs2, hfold, _⟩ := nsFold_ok_of_ne_nil P ls fs1 h1
      exact ⟨fs2, by rw [List.foldlM_cons, except_bind_ok hstep, hfold]⟩

theorem nsFold_no_sig (P : Patterns) :
    ∀ pre : List String, (∀ l ∈ pre, P.reFunctionSignature l = none) →
      List.foldlM (nsStep P) ([] : List LuaFunction) pre = .ok [] ∨
      List.foldlM (nsStep P) ([] : List LuaFunction) pre = .error .indexError := by
  intro pre
  induction pre with
  | nil => exact fun _ => .inl rfl
  | cons l ls ih =>
    intro h
    have hsig : P.reFunctionSignature l = none := h l (by simp)
    rcases hD : parseDescription P l with _ | d
    · have hstep : nsStep P [] l = .ok [] := by
        unfold nsStep LuaFunction.ofLine
        simp [hsig, hD]
      rcases ih (fun x hx => h x (by simp [hx])) with h' | h' <;>
        rw [List.foldlM_cons, except_bind_ok hstep] <;> [exact .inl h'; exact .inr h']
    · have hstep : nsStep P [] l = .error .indexError := by
        unfold nsStep LuaFunction.ofLine
        simp [hsig, hD]
      exact .inr (by rw [List.foldlM_cons, except_bind_error hstep])

theorem streamInit_rest_length_le (P : Patterns) (fn : String) :
    ∀ (ls : List String) (cur : Option (String × String)) (ms : List EnumTag),
      (streamInit P fn ls cur ms).2.length ≤ ls.length := by
  intro ls
  induction ls with
  | nil =>
    intro cur ms
    rcases cur with _ | ⟨nm, lk⟩ <;> simp [streamInit]
  | cons l rest ih =>
    intro cur ms
    rw [streamInit]
    rcases hE : P.reEnumName l with _ | em
    · rcases hM : P.reEnumMember l with _ | mm <;>
        simp only [hE, hM] <;> exact Nat.le_succ_of_le (ih _ _)
    · rcases cur with _ | ⟨nm, lk⟩ <;> simp only [hE]
      · exact Nat.le_succ_of_le (ih _ _)
      · simp

theorem streamInit_some_rest_lt (P : Patterns) (fn : String) :
    ∀ (ls : List String) (ms : List EnumTag) (e : LuaEnumerator)
      (rest : List String),
      streamInit P fn ls none ms = (some e, rest) → rest.length < ls.length := by
  intro ls
  induction ls with
  | nil => intro ms e rest h; simp [streamInit] at h
  | cons l tl ih =>
    intro ms e rest h
    rw [streamInit] at h
    rcases hE : P.reEnumName l with _ | em
    · rcases hM : P.reEnumMember l with _ | mm <;> simp only [hE, hM] at h
      · exact Nat.lt_succ_of_lt (ih _ _ _ h)
      · exact Nat.lt_succ_of_lt (ih _ _ _ h)
    · simp only [hE] at h
      have := streamInit_rest_length_le P fn tl (some (em.name, em.link)) ms
      rw [h] at this
      exact Nat.lt_succ_of_le this

theorem drainFuel_fuel_irrelevant (P : Patterns) (fn : String) :
    ∀ (n : Nat) (ls : List String) (m₁ m₂ : Nat),
      ls.length ≤ n → ls.length < m₁ → ls.length < m₂ →
      drainFuel P fn m₁ ls = drainFuel P fn m₂ ls := by
  intro n
  induction n with
  | zero =>
    intro ls m₁ m₂ hn h₁ h₂
    have hls : ls = [] := List.length_eq_zero.mp (Nat.le_zero.mp hn)
    subst hls
    obtain ⟨a, rfl⟩ := Nat.exists_eq_succ_of_ne_zero (Nat.pos_iff_ne_zero.mp h₁)
    obtain ⟨b, rfl⟩ := Nat.exists_eq_succ_of_ne_zero (Nat.pos_iff_ne_zero.mp h₂)
    simp [drainFuel, streamInit]
  | succ n ih =>
    intro ls m₁ m₂ hn h₁ h₂
    obtain ⟨a, rfl⟩ := Nat.exists_eq_succ_of_ne_zero
      (Nat.pos_iff_ne_zero.mp (Nat.lt_of_le_of_lt (Nat.zero_le _) h₁))
    obtain ⟨b, rfl⟩ := Nat.exists_eq_succ_of_ne_zero
      (Nat.pos_iff_ne_zero.mp (Nat.lt_of_le_of_lt (Nat.zero_le _) h₂))
    rw [drainFuel, drainFuel]
    rcases hS : streamInit P fn ls none [] with ⟨res, rest⟩
    rcases res with _ | e
    · rfl
    · dsimp only
      have hlt : rest.length < ls.length :=
        streamInit_some_rest_lt P fn ls [] e rest hS
      rw [ih rest a b (Nat.le_of_lt_succ (Nat.lt_of_lt_of_le hlt hn))
        (Nat.lt_of_lt_of_le hlt (Nat.le_of_lt_succ h₁))
        (Nat.lt_of_lt_of_le hlt (Nat.le_of_lt_succ h₂))]

theorem streamInit_no_marker (P : Patterns) (fn : String) :
    ∀ (ls : List String) (ms : List EnumTag),
      (∀ l ∈ ls, P.reEnumName l = none) →
      streamInit P fn ls none ms = (none, []) := by
  intro ls
  induction ls with
  | nil => intro ms _; simp [streamInit]
  | cons l tl ih =>
    intro ms h
    rw [streamInit]
    rcases hM : P.reEnumMember l with _ | mm <;>
      simp only [h l (by simp), hM] <;>
      exact ih _ (fun x hx => h x (by simp [hx]))

theorem allDocFiles_error_of_bad_dir (docPath : String) :
    ∀ entries : List DirEntry,
      (∃ e ∈ entries, e.isDir = true ∧ e.name ≠ "search") →
      allDocFiles docPath entries = .error .updatedDoc := by
  intro entries
  induction entries with
  | nil => rintro ⟨e, he, _⟩; simp at he
  | cons e rest ih =>
    rintro ⟨x, hx, hdir, hname⟩
    rcases List.mem_cons.mp hx with rfl | hx'
    · rw [allDocFiles]
      simp [hdir, hname]
    · rw [allDocFiles]
      by_cases hd : e.isDir
      · by_cases hs : e.name = "search"
        · simp [hd, hs, ih ⟨x, hx', hdir, hname⟩]
        · simp [hd, hs]
      · simp [hd, ih ⟨x, hx', hdir, hname⟩]

theorem allDocFiles_ok_of_good_dirs (docPath : String) :
    ∀ entries : List DirEntry,
      (∀ e ∈ entries, e.isDir = true → e.name = "search") →
      ∃ ys, allDocFiles docPath entries = .ok ys := by
  intro entries
  induction entries with
  | nil => exact fun _ => ⟨[], rfl⟩
  | cons e rest ih =>
    intro h
    obtain ⟨ys, hys⟩ := ih (fun x hx => h x (by simp [hx]))
    rw [allDocFiles]
    by_cases hd : e.isDir
    · have hs : e.name = "search" := h e (by simp) hd
      refine ⟨(e.subFiles.map (fun f => (f, pjoin docPath e.name))) ++ ys, ?_⟩
      simp only [hd, hs, ite_true, hys]
    · refine ⟨(e.name, docPath) :: ys, ?_⟩
      simp only [hd, Bool.false_eq_true, ite_false, hys]

theorem LuaMethod_ofLine_desc_none (P : Patterns) (l cn : String)
    (f : LuaFunction) (b : Bool) (h : LuaMethod.ofLine P l cn = .ok (f, b)) :
    f.description = none := by
  unfold LuaMethod.ofLine LuaFunction.ofLine at h
  rcases hs : P.reFunctionSignature l with _ | m
  · simp [hs] at h
  · simp only [hs] at h
    by_cases hn : (LuaFunction.ofMatch P m).name = cn <;>
      simp only [hn, ite_true, ite_false, Except.ok.injEq, Prod.mk.injEq] at h
    · rw [← h.1]
      rfl
    · rw [← h.1]
      rfl

theorem LuaAttribute_ofLine_desc_none (P : Patterns) (l : String)
    (a : LuaAttribute) (h : LuaAttribute.ofLine P l = .ok a) :
    a.description = none := by
  unfold LuaAttribute.ofLine at h
  rcases hs : P.reAttribute l with _ | m
  · simp [hs] at h
  · simp only [hs] at h
    rcases hn : m.name with _ | nm
    · simp [hn] at h
    · simp only [hn, Except.ok.injEq] at h
      rw [← h]

theorem make_link_some (d path : String) (hpath : path ≠ "") :
    (DocDescription.make d (some path)).link =
      some ("https://moddingofisaac.com/docs/" ++ basename path) := by
  simp [DocDescription.make, hpath]

theorem linked_append_desc {α : Type} (get : α → Option DocDescription)
    (L : Option String) (xs : List α) (x : α)
    (hxs : ∀ m ∈ xs, ∀ dd, get m = some dd → dd.link = L)
    (hx : ∀ dd, get x = some dd → dd.link = L) :
    ∀ m ∈ xs ++ [x], ∀ dd, get m = some dd → dd.link = L := by
  intro m hmem dd hdd
  rcases List.mem_append.mp hmem with h' | h'
  · exact hxs m h' dd hdd
  · rw [List.mem_singleton.mp h'] at hdd
    exact hx dd hdd

theorem linked_set_last {α : Type} (get : α → Option DocDescription)
    (L : Option String) (xs : List α) (x : α)
    (hxs : ∀ m ∈ xs, ∀ dd, get m = some dd → dd.link = L)
    (hx : ∀ dd, get x = some dd → dd.link = L) :
    ∀ m ∈ xs.dropLast ++ [x], ∀ dd, get m = some dd → dd.link = L := by
  intro m hmem dd hdd
  rcases List.mem_append.mp hmem with h' | h'
  · exact hxs m (List.dropLast_subset xs h') dd hdd
  · rw [List.mem_singleton.mp h'] at hdd
    exact hx dd hdd

theorem classStep_linked (P : Patterns) (cn path : String)
    (st st' : ClassState) (l : String) (hpath : path ≠ "")
    (hm : ∀ m ∈ st.methods, ∀ dd, m.description = some dd →
      dd.link = some ("https://moddingofisaac.com/docs/" ++ basename path))
    (ha : ∀ a ∈ st.attributes, ∀ dd, a.description = some dd →
      dd.link = some ("https://moddingofisaac.com/docs/" ++ basename path))
    (hstep : classStep P cn path st l = .ok st') :
    (∀ m ∈ st'.methods, ∀ dd, m.description = some dd →
      dd.link = some ("https://moddingofisaac.com/docs/" ++ basename path)) ∧
    (∀ a ∈ st'.attributes, ∀ dd, a.description = some dd →
      dd.link = some ("https://moddingofisaac.com/docs/" ++ basename path)) := by
  unfold classStep at hstep
  rcases hM : LuaMethod.ofLine P l cn with e | ⟨fc, bc⟩ <;>
  rcases hA : LuaAttribute.ofLine P l with e' | a <;>
  rcases hD : parseDescription P l with _ | d <;>
  simp only [hM, hA, hD] at hstep
  · cases hstep
    exact ⟨hm, ha⟩
  · by_cases hL1 : st.lastSet = 1 <;> by_cases hL2 : st.lastSet = 2
    · rw [hL1] at hL2
      exact absurd hL2 (by decide)
    · simp only [hL1, ite_true] at hstep
      rcases hg : st.methods.getLast? with _ | m
      · simp [hg] at hstep
      · simp only [hg] at hstep
        cases hstep
        refine ⟨linked_set_last _ _ _ _ hm ?_, ha⟩
        intro dd hdd
        rw [Option.some_inj.mp hdd.symm] at *
        exact make_link_some d path hpath
    · simp only [hL1, hL2, ite_false, ite_true] at hstep
      rcases hg : st.attributes.getLast? with _ | a'
      · simp [hg] at hstep
      · simp only [hg] at hstep
        cases hstep
        refine ⟨hm, linked_set_last _ _ _ _ ha ?_⟩
        intro dd hdd
        rw [Option.some_inj.mp hdd.symm] at *
        exact make_link_some d path hpath
    · simp only [hL1, hL2, ite_false] at hstep
      cases hstep
      exact ⟨hm, ha⟩
  · cases hstep
    refine ⟨hm, linked_append_desc _ _ _ _ ha ?_⟩
    intro dd hdd
    rw [LuaAttribute_ofLine_desc_none P l a hA] at hdd
    exact absurd hdd (by simp)
  · simp only [if_true, ite_true, List.getLast?_concat] at hstep
    cases hstep
    refine ⟨hm, linked_set_last _ _ _ _ (linked_append_desc _ _ _ _ ha ?_) ?_⟩
    · intro dd hdd
      rw [LuaAttribute_ofLine_desc_none P l a hA] at hdd
      exact absurd hdd (by simp)
    · intro dd hdd
      rw [Option.some_inj.mp hdd.symm] at *
      exact make_link_some d path hpath
  · cases hstep
    refine ⟨linked_append_desc _ _ _ _ hm ?_, ha⟩
    intro dd hdd
    rw [LuaMethod_ofLine_desc_none P l cn fc bc hM] at hdd
    exact absurd hdd (by simp)
  · simp only [if_true, ite_true, List.getLast?_concat] at hstep
    cases hstep
    refine ⟨linked_set_last _ _ _ _ (linked_append_desc _ _ _ _ hm ?_) ?_, ha⟩
    · intro dd hdd
      rw [LuaMethod_ofLine_desc_none P l cn fc bc hM] at hdd
      exact absurd hdd (by simp)
    · intro dd hdd
      rw [Option.some_inj.mp hdd.symm] at *
      exact make_link_some d path hpath
  · cases hstep
    refine ⟨linked_append_desc _ _ _ _ hm ?_, linked_append_desc _ _ _ _ ha ?_⟩
    · intro dd hdd
      rw [LuaMethod_ofLine_desc_none P l cn fc bc hM] at hdd
      exact absurd hdd (by simp)
    · intro dd hdd
      rw [LuaAttribute_ofLine_desc_none P l a hA] at hdd
      exact absurd hdd (by simp)
  · simp only [if_true, ite_true, List.getLast?_concat] at hstep
    cases hstep
    refine ⟨linked_append_desc _ _ _ _ hm ?_,
      linked_set_last _ _ _ _ (linked_append_desc _ _ _ _ ha ?_) ?_⟩
    · intro dd hdd
      rw [LuaMethod_ofLine_desc_none P l cn fc bc hM] at hdd
      exact absurd hdd (by simp)
    · intro dd hdd
      rw [LuaAttribute_ofLine_desc_none P l a hA] at hdd
      exact absurd hdd (by simp)
    · intro dd hdd
      rw [Option.some_inj.mp hdd.symm] at *
      exact make_link_some d path hpath

theorem classFold_linked (P : Patterns) (cn path : String) (hpath : path ≠ "") :
    ∀ (ls : List String) (st st' : ClassState),
      (∀ m ∈ st.methods, ∀ dd, m.description = some dd →
        dd.link = some ("https://moddingofisaac.com/docs/" ++ basename path)) →
      (∀ a ∈ st.attributes, ∀ dd, a.description = some dd →
        dd.link = some ("https://moddingofisaac.com/docs/" ++ basename path)) →
      List.foldlM (classStep P cn path) st ls = .ok st' →
      (∀ m ∈ st'.methods, ∀ dd, m.description = some dd →
        dd.link = some ("https://moddingofisaac.com/docs/" ++ basename path)) ∧
      (∀ a ∈ st'.attributes, ∀ dd, a.description = some dd →
        dd.link = some ("https://moddingofisaac.com/docs/" ++ basename path)) := by
  intro ls
  induction ls with
  | nil =>
    intro st st' hm ha hfold
    cases hfold
    exact ⟨hm, ha⟩
  | cons l ls ih =>
    intro st st' hm ha hfold
    rw [List.foldlM_cons] at hfold
    rcases hstep : classStep P cn path st l with e | st1
    · rw [except_bind_error hstep] at hfold
      cases hfold
    · rw [except_bind_ok hstep] at hfold
      obtain ⟨hm1, ha1⟩ := classStep_linked P cn path st st1 l hpath hm ha hstep
      exact ih st1 st' hm1 ha1 hfold

theorem nsStep_link_none (P : Patterns) (fs fs' : List LuaFunction)
    (l : String)
    (h : ∀ f ∈ fs, ∀ dd, f.description = some dd → dd.link = none)
    (hstep : nsStep P fs l = .ok fs') :
    ∀ f ∈ fs', ∀ dd, f.description = some dd → dd.link = none := by
  unfold nsStep at hstep
  have hfs1 : ∀ g ∈ (match LuaFunction.ofLine P l with
      | .error _ => fs
      | .ok f => fs ++ [f]), ∀ dd, g.description = some dd → dd.link = none := by
    rcases hF : LuaFunction.ofLine P l with e | f <;> simp only [hF]
    · exact h
    · refine linked_append_desc _ _ _ _ h ?_
      intro dd hdd
      have : f.description = none := by
        unfold LuaFunction.ofLine at hF
        rcases hs : P.reFunctionSignature l with _ | m
        · simp [hs] at hF
        · simp only [hs, Except.ok.injEq] at hF
          rw [← hF]
          rfl
      rw [this] at hdd
      exact absurd hdd (by simp)
  rcases hF : LuaFunction.ofLine P l with e | f <;> simp only [hF] at hstep hfs1 <;>
  rcases hD : parseDescription P l with _ | d <;> simp only [hD] at hstep
  · cases hstep
    exact hfs1
  · rcases hg : fs.getLast? with _ | g
    · simp [hg] at hstep
    · simp only [hg] at hstep
      cases hstep
      refine linked_set_last _ _ _ _ hfs1 ?_
      intro dd hdd
      rw [Option.some_inj.mp hdd.symm]
      rfl
  · cases hstep
    exact hfs1
  · rw [List.getLast?_concat] at hstep
    cases hstep
    refine linked_set_last _ _ _ _ hfs1 ?_
    intro dd hdd
    rw [Option.some_inj.mp hdd.symm]
    rfl

theorem nsFold_link_none (P : Patterns) :
    ∀ (ls : List String) (fs fs' : List LuaFunction),
      (∀ f ∈ fs, ∀ dd, f.description = some dd → dd.link = none) →
      List.foldlM (nsStep P) fs ls = .ok fs' →
      ∀ f ∈ fs', ∀ dd, f.description = some dd → dd.link = none := by
  intro ls
  induction ls with
  | nil =>
    intro fs fs' h hfold
    cases hfold
    exact h
  | cons l ls ih =>
    intro fs fs' h hfold
    rw [List.foldlM_cons] at hfold
    rcases hstep : nsStep P fs l with e | fs1
    · rw [except_bind_error hstep] at hfold
      cases hfold
    · rw [except_bind_ok hstep] at hfold
      exact ih fs1 fs' (nsStep_link_none P fs fs1 l h hstep) hfold

/-! Claim theorems. -/

/-- C9: constructing a `LuaType` with no type annotation present (the
`typeHint is None` branch, also reached when an `Optional[Match]` argument
is `None`) yields exactly `{name: "nil", isConst: false, isStatic: false}`;
more generally a constructed type's name is never the empty string, and an
empty matched or given type text also normalizes to the literal `"nil"`. -/
theorem C9_type_defaulting :
    (LuaType.make .noHint false false = ⟨"nil", false, false⟩) ∧
    (LuaType.ofSearch none = ⟨"nil", false, false⟩) ∧
    (∀ (h : TypeHint) (c s : Bool), (LuaType.make h c s).name ≠ "") ∧
    (∀ m : Option TypeMatch, (LuaType.ofSearch m).name ≠ "") ∧
    (∀ c s : Bool, (LuaType.make (.ofStr "") c s).name = "nil") ∧
    (∀ c s : Bool, (LuaType.make (.ofMatch ⟨"", c, s⟩) false false).name = "nil") := by
  refine ⟨rfl, rfl, ?_, ?_, fun _ _ => rfl, fun _ _ => rfl⟩
  · intro h c s
    rcases h with _ | m | s' <;>
      simp only [LuaType.make, LuaType.initFlat] <;>
      split <;> simp_all
  · intro m
    rcases m with _ | tm <;>
      simp only [LuaType.ofSearch, LuaType.make, LuaType.initFlat] <;>
      split <;> simp_all

/-- C2: when the class file content has no class-name marker, `LuaClass`
construction fails with the fatal structural error of spec §7 (realized as
the `AttributeError` from `search(...).group(1)`), never with a field-level
error; when the marker is present, construction terminates successfully
with that non-null name. -/
theorem C2_class_name_extraction (P : Patterns) (classPath : String)
    (ls : List String) :
    (P.reClassName (fileContent ls) = none →
      LuaClass.build P classPath ls = .error .attributeError ∧
      ScraperError.attributeError.isStructural = true ∧
      ScraperError.attributeError.isFieldLevel = false) ∧
    (∀ nm, P.reClassName (fileContent ls) = some nm →
      ∃ c, LuaClass.build P classPath ls = .ok c ∧ c.name = nm) := by
  constructor
  · intro h
    refine ⟨?_, rfl, rfl⟩
    unfold LuaClass.build
    simp [h]
  · intro nm h
    unfold LuaClass.build
    obtain ⟨st, hfold, _⟩ :=
      classFold_ok P nm classPath ls luaClassInitState ⟨by simp [luaClassInitState], by simp [luaClassInitState]⟩
    simp only [h, hfold]
    exact ⟨_, rfl, rfl⟩

/-- Witness for C2: a file with no `CLS` marker fails structurally; a file
with the marker builds a class named `foo`. -/
theorem C2_class_name_extraction_witness :
    (LuaClass.build demoPatterns "cls.html" ["FUN m1\n"] = .error .attributeError ∧
      ScraperError.attributeError.isStructural = true ∧
      ScraperError.attributeError.isFieldLevel = false) ∧
    (∃ c, LuaClass.build demoPatterns "cls.html" ["CLS foo\n"] = .ok c ∧
      c.name = "foo") :=
  ⟨(C2_class_name_extraction demoPatterns "cls.html" ["FUN m1\n"]).1 (by decide),
   (C2_class_name_extraction demoPatterns "cls.html" ["CLS foo\n"]).2 "foo" (by decide)⟩

/-- C7: a doc root that contains a subdirectory not named exactly `search`
makes file categorization fail with `UpdatedDocError` on the first
enumeration pass (no classified result is produced); a root whose only
subdirectories are named `search` categorizes without error. -/
theorem C7_categorizer_subdirectory (docPath : String)
    (entries : List DirEntry) :
    ((∃ e ∈ entries, e.isDir = true ∧ e.name ≠ "search") →
      categorizeFiles docPath entries = .error .updatedDoc ∧
      ScraperError.updatedDoc.isStructural = true) ∧
    ((∀ e ∈ entries, e.isDir = true → e.name = "search") →
      ∃ r, categorizeFiles docPath entries = .ok r) := by
  constructor
  · intro h
    refine ⟨?_, rfl⟩
    unfold categorizeFiles
    simp [allDocFiles_error_of_bad_dir docPath entries h]
  · intro h
    obtain ⟨ys, hys⟩ := allDocFiles_ok_of_good_dirs docPath entries h
    unfold categorizeFiles
    simp only [hys]
    exact ⟨_, rfl⟩

/-- Witness for C7: a root with a `img` subdirectory fails; a root with
only a `search` subdirectory and a plain file categorizes. -/
theorem C7_categorizer_subdirectory_witness :
    (categorizeFiles "d" [⟨"img", true, []⟩] = .error .updatedDoc ∧
      ScraperError.updatedDoc.isStructural = true) ∧
    (∃ r, categorizeFiles "d"
      [⟨"search", true, ["x.js"]⟩, ⟨"class_a.html", false, []⟩] = .ok r) :=
  ⟨(C7_categorizer_subdirectory "d" [⟨"img", true, []⟩]).1
      ⟨⟨"img", true, []⟩, by decide, by decide, by decide⟩,
   (C7_categorizer_subdirectory "d"
      [⟨"search", true, ["x.js"]⟩, ⟨"class_a.html", false, []⟩]).2
      (by decide)⟩

theorem drainEnums_none (P : Patterns) (fn : String) (ls : List String)
    (h : streamInit P fn ls none [] = (none, (streamInit P fn ls none []).2)) :
    drainEnums P fn ls = [] := by
  unfold drainEnums
  rw [drainFuel, h]

theorem drainEnums_step (P : Patterns) (fn : String) (ls rest : List String)
    (e : LuaEnumerator) (h : streamInit P fn ls none [] = (some e, rest)) :
    drainEnums P fn ls = e :: drainEnums P fn rest := by
  unfold drainEnums
  rw [drainFuel, h]
  dsimp only
  have hlt : rest.length < ls.length := streamInit_some_rest_lt P fn ls [] e rest h
  rw [drainFuel_fuel_irrelevant P fn rest.length rest ls.length (rest.length + 1)
    (Nat.le_refl _) hlt (Nat.lt_succ_self _)]

/-- C4: on a file holding two back-to-back enum blocks (a first enum-name
marker, two member lines, a second enum-name marker, one member line),
repeated invocation of the stream reader yields exactly the two enumerator
records in file order — the first with 2 members (returned by the rewind
path, leaving the boundary line unconsumed), the second with 1 member —
and then the `None` sentinel; on a file with no enum-name marker the first
invocation yields the `None` sentinel and no records, without error. -/
theorem C4_enum_stream_boundaries (P : Patterns) (fn : String)
    (e1 m1 m2 e2 m3 : String) (em1 em2 : EnumNameMatch)
    (mm1 mm2 mm3 : EnumMemberMatch)
    (he1 : P.reEnumName e1 = some em1)
    (he2 : P.reEnumName e2 = some em2)
    (hm1 : P.reEnumName m1 = none) (hm1m : P.reEnumMember m1 = some mm1)
    (hm2 : P.reEnumName m2 = none) (hm2m : P.reEnumMember m2 = some mm2)
    (hm3 : P.reEnumName m3 = none) (hm3m : P.reEnumMember m3 = some mm3) :
    (streamInit P fn [e1, m1, m2, e2, m3] none [] =
      (some (LuaEnumerator.make em1.name (fn ++ "#" ++ em1.link)
        [⟨mm1.name, 0, P.reHtmlReplacer (tryMatchString mm1.desc)⟩,
         ⟨mm2.name, 0, P.reHtmlReplacer (tryMatchString mm2.desc)⟩]),
       [e2, m3])) ∧
    (streamInit P fn [e2, m3] none [] =
      (some (LuaEnumerator.make em2.name em2.link
        [⟨mm3.name, 0, P.reHtmlReplacer (tryMatchString mm3.desc)⟩]), [])) ∧
    (streamInit P fn ([] : List String) none [] = (none, [])) ∧
    (drainEnums P fn [e1, m1, m2, e2, m3] =
      [LuaEnumerator.make em1.name (fn ++ "#" ++ em1.link)
        [⟨mm1.name, 0, P.reHtmlReplacer (tryMatchString mm1.desc)⟩,
         ⟨mm2.name, 0, P.reHtmlReplacer (tryMatchString mm2.desc)⟩],
       LuaEnumerator.make em2.name em2.link
        [⟨mm3.name, 0, P.reHtmlReplacer (tryMatchString mm3.desc)⟩]]) ∧
    (∀ ls : List String, (∀ l ∈ ls, P.reEnumName l = none) →
      streamInit P fn ls none [] = (none, []) ∧ drainEnums P fn ls = []) := by
  have h1 : streamInit P fn [e1, m1, m2, e2, m3] none [] =
      (some (LuaEnumerator.make em1.name (fn ++ "#" ++ em1.link)
        [⟨mm1.name, 0, P.reHtmlReplacer (tryMatchString mm1.desc)⟩,
         ⟨mm2.name, 0, P.reHtmlReplacer (tryMatchString mm2.desc)⟩]),
       [e2, m3]) := by
    simp [streamInit, he1, he2, hm1, hm1m, hm2, hm2m]
  have h2 : streamInit P fn [e2, m3] none [] =
      (some (LuaEnumerator.make em2.name em2.link
        [⟨mm3.name, 0, P.reHtmlReplacer (tryMatchString mm3.desc)⟩]), []) := by
    simp [streamInit, he2, hm3, hm3m]
  refine ⟨h1, h2, rfl, ?_, ?_⟩
  · rw [drainEnums_step P fn _ _ _ h1, drainEnums_step P fn _ _ _ h2,
      drainEnums_none P fn [] rfl]
  · intro ls h
    have hs := streamInit_no_marker P fn ls [] h
    exact ⟨hs, drainEnums_none P fn ls (by rw [hs])⟩

/-- Witness for C4: the concrete file `ENU A / MEM x / MEM y / ENU B /
MEM z` yields the two records with 2 and 1 members, and a marker-free file
yields the sentinel. -/
theorem C4_enum_stream_boundaries_witness :
    (streamInit demoPatterns "f" ["ENU A\n", "MEM x\n", "MEM y\n", "ENU B\n", "MEM z\n"] none [] =
      (some (LuaEnumerator.make "A" ("f" ++ "#" ++ "lk")
        [⟨"x", 0, demoPatterns.reHtmlReplacer (tryMatchString none)⟩,
         ⟨"y", 0, demoPatterns.reHtmlReplacer (tryMatchString none)⟩]),
       ["ENU B\n", "MEM z\n"])) ∧
    (drainEnums demoPatterns "f" ["ENU A\n", "MEM x\n", "MEM y\n", "ENU B\n", "MEM z\n"] =
      [LuaEnumerator.make "A" ("f" ++ "#" ++ "lk")
        [⟨"x", 0, demoPatterns.reHtmlReplacer (tryMatchString none)⟩,
         ⟨"y", 0, demoPatterns.reHtmlReplacer (tryMatchString none)⟩],
       LuaEnumerator.make "B" "lk"
        [⟨"z", 0, demoPatterns.reHtmlReplacer (tryMatchString none)⟩]]) ∧
    (streamInit demoPatterns "f" ["MEM q\n"] none [] = (none, []) ∧
      drainEnums demoPatterns "f" ["MEM q\n"] = []) := by
  have h := C4_enum_stream_boundaries demoPatterns "f"
    "ENU A\n" "MEM x\n" "MEM y\n" "ENU B\n" "MEM z\n"
    ⟨"A", "lk"⟩ ⟨"B", "lk"⟩ ⟨"x", none⟩ ⟨"y", none⟩ ⟨"z", none⟩
    (by decide) (by decide) (by decide) (by decide) (by decide) (by decide)
    (by decide) (by decide)
  exact ⟨h.1, h.2.2.2.1, h.2.2.2.2 ["MEM q\n"] (by decide)⟩

/-- C5: on a class source whose lines are, in order, a method line, a
description line, an attribute line and a second description line, the
first description attaches to the method and the second to the attribute
(each description goes to the last element of the most recently extended
list); a description line with no previously recognized method or
attribute is silently dropped and construction succeeds. -/
theorem C5_description_attachment (P : Patterns) (path cn : String)
    (m1 d1 a1 d2 d0 : String) (fm : FuncSigMatch) (am : AttribMatch)
    (an dd1 dd2 dd0 : String)
    (hcn : P.reClassName (fileContent [m1, d1, a1, d2]) = some cn)
    (hm1s : P.reFunctionSignature m1 = some fm)
    (hm1a : P.reAttribute m1 = none)
    (hm1d : P.reDescription m1 = none)
    (hfm : fm.name ≠ cn)
    (hd1s : P.reFunctionSignature d1 = none)
    (hd1a : P.reAttribute d1 = none)
    (hd1d : P.reDescription d1 = some dd1)
    (ha1s : P.reFunctionSignature a1 = none)
    (ha1a : P.reAttribute a1 = some am)
    (ham : am.name = some an)
    (ha1d : P.reDescription a1 = none)
    (hd2s : P.reFunctionSignature d2 = none)
    (hd2a : P.reAttribute d2 = none)
    (hd2d : P.reDescription d2 = some dd2)
    (hcn0 : P.reClassName (fileContent [d0]) = some cn)
    (hd0s : P.reFunctionSignature d0 = none)
    (hd0a : P.reAttribute d0 = none)
    (hd0d : P.reDescription d0 = some dd0) :
    (∃ c, LuaClass.build P path [m1, d1, a1, d2] = .ok c ∧
      c.methods = [{ LuaFunction.ofMatch P fm with
        description := some (DocDescription.make
          (P.subHtmlFlags (pyStrip dd1)) (some path)) }] ∧
      c.attributes = [{ name := an,
                        luaType := LuaType.ofSearch
                          (P.reAttributeType (P.reHtmlReplacer am.type)),
                        description := some (DocDescription.make
                          (P.subHtmlFlags (pyStrip dd2)) (some path)) }]) ∧
    (∃ c, LuaClass.build P path [d0] = .ok c ∧
      c.methods = [] ∧ c.attributes = []) := by
  constructor
  · have h1 : classStep P cn path ⟨[], [], none, 0⟩ m1 =
        .ok ⟨[LuaFunction.ofMatch P fm], [], none, 1⟩ := by
      unfold classStep LuaMethod.ofLine LuaFunction.ofLine LuaAttribute.ofLine
        parseDescription
      simp [hm1s, hm1a, hm1d, LuaFunction.ofMatch, hfm]
    have h2 : classStep P cn path ⟨[LuaFunction.ofMatch P fm], [], none, 1⟩ d1 =
        .ok ⟨[{ LuaFunction.ofMatch P fm with
          description := some (DocDescription.make
            (P.subHtmlFlags (pyStrip dd1)) (some path)) }], [], none, 1⟩ := by
      unfold classStep LuaMethod.ofLine LuaFunction.ofLine LuaAttribute.ofLine
        parseDescription
      simp [hd1s, hd1a, hd1d]
    have h3 : classStep P cn path ⟨[{ LuaFunction.ofMatch P fm with
          description := some (DocDescription.make
            (P.subHtmlFlags (pyStrip dd1)) (some path)) }], [], none, 1⟩ a1 =
        .ok ⟨[{ LuaFunction.ofMatch P fm with
          description := some (DocDescription.make
            (P.subHtmlFlags (pyStrip dd1)) (some path)) }],
          [{ name := an,
               luaType := LuaType.ofSearch
                 (P.reAttributeType (P.reHtmlReplacer am.type)),
               description := none }], none, 2⟩ := by
      unfold classStep LuaMethod.ofLine LuaFunction.ofLine LuaAttribute.ofLine
        parseDescription
      simp [ha1s, ha1a, ham, ha1d]
    have h4 : classStep P cn path ⟨[{ LuaFunction.ofMatch P fm with
          description := some (DocDescription.make
            (P.subHtmlFlags (pyStrip dd1)) (some path)) }],
          [{ name := an,
               luaType := LuaType.ofSearch
                 (P.reAttributeType (P.reHtmlReplacer am.type)),
               description := none }], none, 2⟩ d2 =
        .ok ⟨[{ LuaFunction.ofMatch P fm with
          description := some (DocDescription.make
            (P.subHtmlFlags (pyStrip dd1)) (some path)) }],
          [{ name := an,
               luaType := LuaType.ofSearch
                 (P.reAttributeType (P.reHtmlReplacer am.type)),
               description := some (DocDescription.make
                 (P.subHtmlFlags (pyStrip dd2)) (some path)) }], none, 2⟩ := by
      unfold classStep LuaMethod.ofLine LuaFunction.ofLine LuaAttribute.ofLine
        parseDescription
      simp [hd2s, hd2a, hd2d]
    unfold LuaClass.build
    simp only [hcn, luaClassInitState, List.foldlM_cons, List.foldlM_nil,
      except_bind_ok h1, except_bind_ok h2, except_bind_ok h3, except_bind_ok h4]
    exact ⟨_, rfl, rfl, rfl⟩
  · have h0 : classStep P cn path ⟨[], [], none, 0⟩ d0 =
        .ok ⟨[], [], none, 0⟩ := by
      unfold classStep LuaMethod.ofLine LuaFunction.ofLine LuaAttribute.ofLine
        parseDescription
      simp [hd0s, hd0a, hd0d]
    unfold LuaClass.build
    simp only [hcn0, luaClassInitState, List.foldlM_cons, List.foldlM_nil,
      except_bind_ok h0]
    exact ⟨_, rfl, rfl, rfl⟩

/-- Witness for C5: the concrete class source `FUN m1 / DES hey / ATT a1 /
DES yo` under the demonstration patterns (class name always `foo`). -/
theorem C5_description_attachment_witness :
    (∃ c, LuaClass.build demoPatternsFoo "cls.html"
        ["FUN m1\n", "DES hey\n", "ATT a1\n", "DES yo\n"] = .ok c ∧
      c.methods = [{ LuaFunction.ofMatch demoPatternsFoo ⟨"m1", none, none⟩ with
        description := some (DocDescription.make
          (demoPatternsFoo.subHtmlFlags (pyStrip "hey")) (some "cls.html")) }] ∧
      c.attributes = [{ name := "a1",
                        luaType := LuaType.ofSearch
                          (demoPatternsFoo.reAttributeType
                            (demoPatternsFoo.reHtmlReplacer "")),
                        description := some (DocDescription.make
                          (demoPatternsFoo.subHtmlFlags (pyStrip "yo"))
                          (some "cls.html")) }]) ∧
    (∃ c, LuaClass.build demoPatternsFoo "cls.html" ["DES solo\n"] = .ok c ∧
      c.methods = [] ∧ c.attributes = []) :=
  C5_description_attachment demoPatternsFoo "cls.html" "foo"
    "FUN m1\n" "DES hey\n" "ATT a1\n" "DES yo\n" "DES solo\n"
    ⟨"m1", none, none⟩ ⟨some "a1", ""⟩ "a1" "hey" "yo" "solo"
    (by decide) (by decide) (by decide) (by decide) (by decide) (by decide)
    (by decide) (by decide) (by decide) (by decide) (by decide) (by decide)
    (by decide) (by decide) (by decide) (by decide) (by decide) (by decide)
    (by decide)

/-- C6: in a class named `cn` whose method lines carry the names
`[cn, other, cn]`, all three methods appear as separate entries in file
order, and the recorded constructor is the method at index 2 (the last one
named `cn`), whose return type is the class type marked static. -/
theorem C6_constructor_last_wins (P : Patterns) (path cn : String)
    (l1 l2 l3 : String) (f1 f2 f3 : FuncSigMatch)
    (hcn : P.reClassName (fileContent [l1, l2, l3]) = some cn)
    (hcne : cn ≠ "")
    (h1s : P.reFunctionSignature l1 = some f1) (h1n : f1.name = cn)
    (h1a : P.reAttribute l1 = none) (h1d : P.reDescription l1 = none)
    (h2s : P.reFunctionSignature l2 = some f2) (h2n : f2.name ≠ cn)
    (h2a : P.reAttribute l2 = none) (h2d : P.reDescription l2 = none)
    (h3s : P.reFunctionSignature l3 = some f3) (h3n : f3.name = cn)
    (h3a : P.reAttribute l3 = none) (h3d : P.reDescription l3 = none) :
    ∃ c, LuaClass.build P path [l1, l2, l3] = .ok c ∧
      c.methods.map (fun m => m.name) = [cn, f2.name, cn] ∧
      c.constructorIdx = some 2 ∧
      c.constructorMethod = c.methods[2]? ∧
      c.constructorMethod = some { LuaFunction.ofMatch P f3 with
        returnType := LuaType.make (.ofStr cn) false true } ∧
      c.constructorMethod.map (fun m => m.returnType) =
        some ⟨cn, false, true⟩ := by
  have e1 : classStep P cn path ⟨[], [], none, 0⟩ l1 =
      .ok ⟨[{ LuaFunction.ofMatch P f1 with
        returnType := LuaType.make (.ofStr cn) false true }], [], some 0, 1⟩ := by
    unfold classStep LuaMethod.ofLine LuaFunction.ofLine LuaAttribute.ofLine
      parseDescription
    simp [h1s, h1a, h1d, LuaFunction.ofMatch, h1n]
  have e2 : classStep P cn path ⟨[{ LuaFunction.ofMatch P f1 with
        returnType := LuaType.make (.ofStr cn) false true }], [], some 0, 1⟩ l2 =
      .ok ⟨[{ LuaFunction.ofMatch P f1 with
        returnType := LuaType.make (.ofStr cn) false true },
        LuaFunction.ofMatch P f2], [], some 0, 1⟩ := by
    unfold classStep LuaMethod.ofLine LuaFunction.ofLine LuaAttribute.ofLine
      parseDescription
    simp [h2s, h2a, h2d, LuaFunction.ofMatch, h2n]
  have e3 : classStep P cn path ⟨[{ LuaFunction.ofMatch P f1 with
        returnType := LuaType.make (.ofStr cn) false true },
        LuaFunction.ofMatch P f2], [], some 0, 1⟩ l3 =
      .ok ⟨[{ LuaFunction.ofMatch P f1 with
        returnType := LuaType.make (.ofStr cn) false true },
        LuaFunction.ofMatch P f2,
        { LuaFunction.ofMatch P f3 with
          returnType := LuaType.make (.ofStr cn) false true }], [], some 2, 1⟩ := by
    unfold classStep LuaMethod.ofLine LuaFunction.ofLine LuaAttribute.ofLine
      parseDescription
    simp [h3s, h3a, h3d, LuaFunction.ofMatch, h3n]
  unfold LuaClass.build
  simp only [hcn, luaClassInitState, List.foldlM_cons, List.foldlM_nil,
    except_bind_ok e1, except_bind_ok e2, except_bind_ok e3]
  refine ⟨_, rfl, ?_, rfl, rfl, rfl, ?_⟩
  · simp [LuaFunction.ofMatch, h1n, h2n, h3n]
  · simp only [LuaClass.constructorMethod, Option.bind, Option.map]
    simp [LuaType.make, LuaType.initFlat, hcne]

/-- Witness for C6: a class `foo` with method lines `foo, bar, foo`. -/
theorem C6_constructor_last_wins_witness :
    ∃ c, LuaClass.build demoPatternsFoo "cls.html"
        ["FUN foo\n", "FUN bar\n", "FUN foo\n"] = .ok c ∧
      c.methods.map (fun m => m.name) = ["foo", "bar", "foo"] ∧
      c.constructorIdx = some 2 ∧
      c.constructorMethod = c.methods[2]? ∧
      c.constructorMethod = some { LuaFunction.ofMatch demoPatternsFoo
          ⟨"foo", none, none⟩ with
        returnType := LuaType.make (.ofStr "foo") false true } ∧
      c.constructorMethod.map (fun m => m.returnType) =
        some ⟨"foo", false, true⟩ :=
  C6_constructor_last_wins demoPatternsFoo "cls.html" "foo"
    "FUN foo\n" "FUN bar\n" "FUN foo\n"
    ⟨"foo", none, none⟩ ⟨"bar", none, none⟩ ⟨"foo", none, none⟩
    (by decide) (by decide) (by decide) (by decide) (by decide) (by decide)
    (by decide) (by decide) (by decide) (by decide) (by decide) (by decide)
    (by decide) (by decide)

/-- Counterexample to C3 as stated: on the designated global-functions
file (basename `group__funcs.html`) with namespace-name extraction
failing, construction does not always succeed — a body whose only line
matches the description pattern makes the loop index the empty `functions`
list, so construction fails with an uncaught `IndexError`. -/
theorem C3_counterexample :
    demoPatterns.reNamespaceName (fileContent ["DES x\n"]) = none ∧
    basename "group__funcs.html" = "group__funcs.html" ∧
    LuaNamespace.build demoPatterns "group__funcs.html" ["DES x\n"] =
      .error .indexError := by
  refine ⟨by decide, by decide, by decide⟩

/-- C3 (amended): when namespace-name extraction fails on the designated
global-functions file, the failure is not propagated — the name is set to
`'_G'` and construction succeeds provided no description line precedes the
first function-signature line; when extraction fails on any other file,
the failure propagates as the fatal structural error kind (the re-raised
`AttributeError`). -/
theorem C3_global_funcs_fallback (P : Patterns) (path : String)
    (ls : List String) :
    (P.reNamespaceName (fileContent ls) = none →
      basename path = "group__funcs.html" →
      descSafe P ls = true →
      ∃ ns, LuaNamespace.build P path ls = .ok ns ∧ ns.name = "_G") ∧
    (P.reNamespaceName (fileContent ls) = none →
      basename path ≠ "group__funcs.html" →
      LuaNamespace.build P path ls = .error .attributeError ∧
      ScraperError.attributeError.isStructural = true ∧
      ScraperError.attributeError.isFieldLevel = false) := by
  constructor
  · intro hnm hbase hsafe
    obtain ⟨fs, hfold⟩ := nsFold_ok_of_descSafe P ls hsafe
    unfold LuaNamespace.build
    simp only [hnm, hbase, ite_true, if_pos rfl, hfold]
    exact ⟨_, rfl, rfl⟩
  · intro hnm hbase
    refine ⟨?_, rfl, rfl⟩
    unfold LuaNamespace.build
    simp only [hnm, hbase, ite_false, if_neg hbase]

/-- Witness for the amended C3: a `group__funcs.html` file whose first
line is a function signature builds a `_G` namespace; a different file
with no namespace marker fails structurally. -/
theorem C3_global_funcs_fallback_witness :
    (∃ ns, LuaNamespace.build demoPatterns "group__funcs.html"
      ["FUN f\n", "DES d\n"] = .ok ns ∧ ns.name = "_G") ∧
    (LuaNamespace.build demoPatterns "other.html" ["FUN f\n"] =
      .error .attributeError ∧
      ScraperError.attributeError.isStructural = true ∧
      ScraperError.attributeError.isFieldLevel = false) :=
  ⟨(C3_global_funcs_fallback demoPatterns "group__funcs.html"
      ["FUN f\n", "DES d\n"]).1 (by decide) (by decide) (by decide),
   (C3_global_funcs_fallback demoPatterns "other.html" ["FUN f\n"]).2
      (by decide) (by decide)⟩

/-- C10: in a namespace file whose name extraction succeeds, a line
matching the description pattern with no function-signature line at or
before it makes construction fail with the uncaught `IndexError` from
indexing the empty functions list — the description is not silently
dropped the way the class builder drops it. -/
theorem C10_namespace_desc_index_error (P : Patterns) (path nm : String)
    (pre : List String) (dline : String) (post : List String)
    (hnm : P.reNamespaceName (fileContent (pre ++ dline :: post)) = some nm)
    (hpre : ∀ l ∈ pre, P.reFunctionSignature l = none)
    (hds : P.reFunctionSignature dline = none)
    (hdd : (P.reDescription dline).isSome) :
    LuaNamespace.build P path (pre ++ dline :: post) = .error .indexError := by
  obtain ⟨d, hd⟩ := Option.isSome_iff_exists.mp hdd
  have hstep : nsStep P [] dline = .error .indexError := by
    unfold nsStep LuaFunction.ofLine
    simp [hds, parseDescription, hd]
  have hfold : List.foldlM (nsStep P) ([] : List LuaFunction)
      (pre ++ dline :: post) = .error .indexError := by
    rw [List.foldlM_append]
    rcases nsFold_no_sig P pre hpre with h' | h'
    · rw [except_bind_ok h', List.foldlM_cons, except_bind_error hstep]
    · rw [except_bind_error h']
  unfold LuaNamespace.build
  simp only [hnm, hfold]

/-- Witness for C10: a namespace file whose body is a single description
line fails with the index error. -/
theorem C10_namespace_desc_index_error_witness :
    LuaNamespace.build demoPatternsNs "ns.html" ["DES x\n"] =
      .error .indexError :=
  C10_namespace_desc_index_error demoPatternsNs "ns.html" "ns"
    [] "DES x\n" [] (by decide) (by decide) (by decide) (by decide)

/-- C8: a Description built with an associated source file links the fixed
public documentation base URL joined with that file's basename, and a
Description built with no source file has no link; consequently every
description attached to a built class's methods or attributes links the
class file, while every description attached to a built namespace's
functions has no link. -/
theorem C8_description_links :
    (∀ d : String, (DocDescription.make d none).link = none) ∧
    (∀ d p : String, p ≠ "" → (DocDescription.make d (some p)).link =
      some ("https://moddingofisaac.com/docs/" ++ basename p)) ∧
    (∀ (P : Patterns) (path : String) (ls : List String) (c : LuaClass),
      path ≠ "" → LuaClass.build P path ls = .ok c →
      (∀ m ∈ c.methods, ∀ dd, m.description = some dd →
        dd.link = some ("https://moddingofisaac.com/docs/" ++ basename path)) ∧
      (∀ a ∈ c.attributes, ∀ dd, a.description = some dd →
        dd.link = some ("https://moddingofisaac.com/docs/" ++ basename path))) ∧
    (∀ (P : Patterns) (path : String) (ls : List String) (ns : LuaNamespace),
      LuaNamespace.build P path ls = .ok ns →
      ∀ f ∈ ns.functions, ∀ dd, f.description = some dd → dd.link = none) := by
  refine ⟨fun d => rfl, fun d p hp => make_link_some d p hp, ?_, ?_⟩
  · intro P path ls c hpath hbuild
    unfold LuaClass.build at hbuild
    rcases hcn : P.reClassName (fileContent ls) with _ | nm
    · simp [hcn] at hbuild
    · simp only [hcn] at hbuild
      rcases hfold : List.foldlM (classStep P nm path) luaClassInitState ls
        with e | st
      · simp [hfold] at hbuild
      · simp only [hfold, Except.ok.injEq] at hbuild
        obtain ⟨hm, ha⟩ := classFold_linked P nm path hpath ls
          luaClassInitState st (by simp [luaClassInitState])
          (by simp [luaClassInitState]) hfold
        rw [← hbuild]
        exact ⟨hm, ha⟩
  · intro P path ls ns hbuild
    unfold LuaNamespace.build at hbuild
    rcases hnm : P.reNamespaceName (fileContent ls) with _ | nm
    · simp only [hnm] at hbuild
      by_cases hb : basename path = "group__funcs.html"
      · simp only [hb, ite_true, if_pos rfl] at hbuild
        rcases hfold : List.foldlM (nsStep P) ([] : List LuaFunction) ls
          with e | fs
        · simp [hfold] at hbuild
        · simp only [hfold, Except.ok.injEq] at hbuild
          rw [← hbuild]
          exact nsFold_link_none P ls [] fs (by simp) hfold
      · simp [hb] at hbuild
    · simp only [hnm] at hbuild
      rcases hfold : List.foldlM (nsStep P) ([] : List LuaFunction) ls
        with e | fs
      · simp [hfold] at hbuild
      · simp only [hfold, Except.ok.injEq] at hbuild
        rw [← hbuild]
        exact nsFold_link_none P ls [] fs (by simp) hfold

/-- Witness for C8: concrete linked and link-free descriptions, a concrete
class build whose attached method description links the class file, and a
concrete namespace build whose attached function description has no link. -/
theorem C8_description_links_witness :
    (DocDescription.make "d" none).link = none ∧
    (DocDescription.make "d" (some "a/b.html")).link =
      some ("https://moddingofisaac.com/docs/" ++ basename "a/b.html") ∧
    (LuaClass.build demoPatterns "cls.html"
        ["CLS foo\n", "FUN m1\n", "DES hey\n"] = .ok
      { name := "foo",
        description := ⟨"foo instance",
          some "https://moddingofisaac.com/docs/cls.html"⟩,
        parentNames := [],
        methods := [⟨"m1", [], ⟨"nil", false, false⟩,
          some ⟨"hey", some "https://moddingofisaac.com/docs/cls.html"⟩⟩],
        attributes := [],
        constructorIdx := none } ∧
      (⟨"hey", some "https://moddingofisaac.com/docs/cls.html"⟩ :
          DocDescription).link =
        some ("https://moddingofisaac.com/docs/" ++ basename "cls.html")) ∧
    (LuaNamespace.build demoPatterns "ns.html"
        ["NSP n\n", "FUN f\n", "DES d\n"] = .ok
      ⟨"n", [⟨"f", [], ⟨"nil", false, false⟩, some ⟨"d", none⟩⟩]⟩ ∧
      (⟨"d", none⟩ : DocDescription).link = none) := by
  refine ⟨C8_description_links.1 "d",
    C8_description_links.2.1 "d" "a/b.html" (by decide),
    ⟨by decide, ?_⟩, ⟨by decide, ?_⟩⟩
  · exact (C8_description_links.2.2.1 demoPatterns "cls.html"
      ["CLS foo\n", "FUN m1\n", "DES hey\n"]
      { name := "foo",
        description := ⟨"foo instance",
          some "https://moddingofisaac.com/docs/cls.html"⟩,
        parentNames := [],
        methods := [⟨"m1", [], ⟨"nil", false, false⟩,
          some ⟨"hey", some "https://moddingofisaac.com/docs/cls.html"⟩⟩],
        attributes := [],
        constructorIdx := none }
      (by decide) (by decide)).1
      ⟨"m1", [], ⟨"nil", false, false⟩,
        some ⟨"hey", some "https://moddingofisaac.com/docs/cls.html"⟩⟩
      (by decide)
      ⟨"hey", some "https://moddingofisaac.com/docs/cls.html"⟩ (by decide)
  · exact C8_description_links.2.2.2 demoPatterns "ns.html"
      ["NSP n\n", "FUN f\n", "DES d\n"]
      ⟨"n", [⟨"f", [], ⟨"nil", false, false⟩, some ⟨"d", none⟩⟩]⟩
      (by decide)
      ⟨"f", [], ⟨"nil", false, false⟩, some ⟨"d", none⟩⟩ (by decide)
      ⟨"d", none⟩ (by decide)

/-- C1 fails on the code (mutable class-level default): `AfterbirthApi`
appends the drained enumerators to the `enumerators` list bound at
class-definition scope, so a second construction over the unchanged tree
starts from the first run's list and produces an enumerators sequence
equal to the first run's list concatenated with itself — not equal to the
first snapshot's sequence.  `classes` and `namespaces` are re-assigned
fresh lists and stay equal. -/
theorem C1_assembler_enumerators_accumulate :
    AfterbirthApi.buildSt demoPatterns "d" oneEnumTree [] =
      .ok (⟨[], [oneEnumNsG], [oneEnumA]⟩, [oneEnumA]) ∧
    AfterbirthApi.buildSt demoPatterns "d" oneEnumTree [oneEnumA] =
      .ok (⟨[], [oneEnumNsG], [oneEnumA, oneEnumA]⟩, [oneEnumA, oneEnumA]) ∧
    ([oneEnumA, oneEnumA] : List LuaEnumerator) ≠ [oneEnumA] := by
  refine ⟨by decide, by decide, by decide⟩
